import Mathlib

/-!
Shallow embedding of the csvsmith classification engine
(`src/csvsmith/classify.py`, class `CSVClassifier`) and proofs about it.

Modelling conventions:
* Python strings are Lean `String`s (ASCII-faithful for the operations used:
  strip/trim, lower, isdigit).
* Filesystem paths are absolute path strings joined with "/"; `Path.name`,
  `Path.stem`, `Path.suffix` are re-implemented on those strings following
  the pathlib semantics.
* The filesystem is an explicit state `FS` (a list of existing file paths
  and a list of existing directories); `shutil.move` and `mkdir(parents=True)`
  become pure transformers of that state.
* `datetime.now()` timestamps are injected as explicit string parameters.
* Reading a CSV file's first row is abstracted by `ReadOutcome`: either a
  decode/parse error (`UnicodeDecodeError` / `csv.Error`) or the value of
  `next(reader, None)`.
* An exception raised by `shutil.move` in the apply branch is modelled by a
  boolean fault flag on each file input.
-/

namespace Csvsmith

/-! ## String helpers mirroring the Python primitives used by classify.py -/

/-- ASCII decimal digit test (`Char.isDigit`, spelled out so the kernel can
evaluate it). -/
def isDigitChar (c : Char) : Bool :=
  48 ≤ c.toNat && c.toNat ≤ 57

/-- Python `str.isdigit` restricted to ASCII: true iff the string is nonempty
and every character is a decimal digit `0`-`9`. -/
def pyIsdigit (s : String) : Bool :=
  !s.data.isEmpty && s.data.all isDigitChar

/-- Remove the first occurrence of a dot from a character list
(Python `s.replace(".", "", 1)`). -/
def removeFirstDot : List Char → List Char
  | [] => []
  | c :: rest => if c = '.' then rest else c :: removeFirstDot rest

/-- Python `s.replace(".", "", 1)`. -/
def pyReplaceDotOnce (s : String) : String :=
  ⟨removeFirstDot s.data⟩

/-- ASCII lowercasing of one character. -/
def charLower (c : Char) : Char :=
  match "ABCDEFGHIJKLMNOPQRSTUVWXYZ".data.indexOf? c with
  | some i => "abcdefghijklmnopqrstuvwxyz".data.getD i c
  | none => c

/-- Python `str.lower` / `str.casefold`, ASCII model. -/
def pyLower (s : String) : String :=
  ⟨s.data.map charLower⟩

/-- ASCII whitespace, as stripped by Python `str.strip()`. -/
def isSpaceChar (c : Char) : Bool :=
  c = ' ' || c = '\t' || c = '\n' || c = '\r' || c = '\x0b' || c = '\x0c'

/-- Python `str.strip()` (whitespace trim, ASCII model). -/
def pyStrip (s : String) : String :=
  ⟨((s.data.dropWhile isSpaceChar).reverse.dropWhile isSpaceChar).reverse⟩

/-! ## Path helpers (pathlib model over "/"-joined absolute path strings) -/

/-- Join a directory path and a child name (`dir / name` in pathlib). -/
def pathJoin (dir name : String) : String :=
  dir ++ "/" ++ name

/-- Split a character list on slashes (`String.splitOn "/"`). -/
def splitSlash : List Char → List (List Char)
  | [] => [[]]
  | c :: rest =>
    match splitSlash rest with
    | [] => [[]]
    | g :: gs => if c = '/' then [] :: g :: gs else (c :: g) :: gs

/-- `Path.name`: the final path component. -/
def pathName (p : String) : String :=
  ⟨(splitSlash p.data).getLastD []⟩

/-- `Path.parent` as a string: everything before the final component. -/
def pathParent (p : String) : String :=
  String.intercalate "/" (((splitSlash p.data).dropLast).map fun l => ⟨l⟩)

/-- Index of the last dot of a character list, if any. -/
def lastDotIdx (cs : List Char) : Option Nat :=
  match cs.reverse.findIdx? (· = '.') with
  | some j => some (cs.length - 1 - j)
  | none => none

/-- `Path.suffix` of a file NAME: the extension including the dot, where the
dot must be neither the first nor the last character of the name. -/
def nameSuffix (name : String) : String :=
  match lastDotIdx name.data with
  | some i => if 0 < i ∧ i + 1 < name.data.length then ⟨name.data.drop i⟩ else ""
  | none => ""

/-- `Path.stem` of a file NAME: the name without its `nameSuffix`. -/
def nameStem (name : String) : String :=
  match lastDotIdx name.data with
  | some i => if 0 < i ∧ i + 1 < name.data.length then ⟨name.data.take i⟩ else name
  | none => name

/-- `Path.suffix` of a full path. -/
def pathSuffix (p : String) : String :=
  nameSuffix (pathName p)

/-! ## Classifier configuration (constructor arguments of `CSVClassifier`) -/

/-- The configuration fields of a `CSVClassifier` instance.  `match` is a Lean
keyword, so the source's `match` option is called `matchStrat` here. -/
structure ClassifierCfg where
  source : String
  dest : String
  signatures : List (String × List String)  -- insertion-ordered dict
  mode : String := "strict"
  matchStrat : String := "exact"
  auto : Bool := false
  dry_run : Bool := false
  report_only : Bool := false
  strip : Bool := true
  casefold : Bool := false
  drop_empty : Bool := true
deriving Repr

/-! ## Header extraction (`_read_header_row`, `_is_purely_numeric_row`) -/

/-- Outcome of opening the file and asking the csv reader for the first row:
either a `UnicodeDecodeError`/`csv.Error`, or `next(reader, None)`. -/
inductive ReadOutcome where
  | decodeError : ReadOutcome
  | rows : Option (List String) → ReadOutcome
deriving DecidableEq, Repr

/-- `_is_purely_numeric_row`'s inner `is_num`:
`s.replace(".", "", 1).isdigit()`. -/
def is_num (s : String) : Bool :=
  pyIsdigit (pyReplaceDotOnce s)

/-- `CSVClassifier._is_purely_numeric_row`: strip every cell, drop blank
cells; an empty remainder is NOT numeric; otherwise all cells must be
numeric. -/
def is_purely_numeric_row (row : List String) : Bool :=
  let cells := (row.map pyStrip).filter (· ≠ "")
  if cells.isEmpty then false
  else cells.all is_num

/-- `CSVClassifier._read_header_row`: `None` for a non-`.csv` extension, a
decode/parse error, a missing or empty first row, or a purely numeric first
row; otherwise the raw first row. -/
def read_header_row (file_path : String) (outcome : ReadOutcome) :
    Option (List String) :=
  if pyLower (pathSuffix file_path) ≠ ".csv" then none
  else
    match outcome with
    | .decodeError => none
    | .rows none => none
    | .rows (some header) =>
      if header.isEmpty then none
      else if is_purely_numeric_row header then none
      else some header

/-! ## Header normalization (`_normalize_header`) -/

/-- `CSVClassifier._normalize_header`.  The `mode` argument of the source
function is only validated there (raising for values other than
"strict"/"relaxed", which the constructor already rules out) and has no
effect on the returned list, so it is not a parameter here. -/
def normalize_header (cfg : ClassifierCfg) (header : List String) :
    List String :=
  header.filterMap fun s =>
    let s := if cfg.strip then pyStrip s else s
    let s := if cfg.casefold then pyLower s else s
    if cfg.drop_empty && s == "" then none else some s

/-! ## Header keys (`HeaderKey`, `_header_key`) -/

/-- Hashable header signature (frozen dataclass `HeaderKey`). -/
structure HeaderKey where
  mode : String
  cols : List String
deriving DecidableEq, Repr

/-- Code-point lexicographic strict comparison of character lists (Python
string `<`), as an executable Boolean. -/
def charListLt : List Char → List Char → Bool
  | [], [] => false
  | [], _ :: _ => true
  | _ :: _, [] => false
  | a :: as, b :: bs =>
    if a.toNat < b.toNat then true
    else if b.toNat < a.toNat then false
    else charListLt as bs

/-- The `≤` total order on strings induced by `charListLt` (Python string
`<=`). -/
def strLe (a b : String) : Prop :=
  charListLt b.data a.data = false

instance : DecidableRel strLe := fun _ _ =>
  inferInstanceAs (Decidable (_ = false))

/-- Python `sorted(set(l))` for strings: sorted list of the distinct
elements, in code-point lexicographic order. -/
def sortedDedup (l : List String) : List String :=
  List.insertionSort strLe l.dedup

/-- `CSVClassifier._header_key`: strict keeps order and duplicates, relaxed
sorts and deduplicates. -/
def header_key (header : List String) (mode : String) : HeaderKey :=
  if mode = "strict" then { mode := "strict", cols := header }
  else { mode := "relaxed", cols := sortedDedup header }

/-! ## Matching (`_match_category`) -/

/-- Precomputed signature keys for exact matching (constructor loop). -/
def signature_keys (cfg : ClassifierCfg) : List (String × HeaderKey) :=
  cfg.signatures.map fun p => (p.1, header_key (normalize_header cfg p.2) cfg.mode)

/-- Does a header (as a membership set) contain every normalized required
column?  Python uses `set(header_norm)`; membership in the set equals
membership in the list. -/
def containsAll (header_norm required_norm : List String) : Bool :=
  required_norm.all (header_norm.contains ·)

/-- First category of the association list whose required columns are all
contained in the header (the `contains` loop of `_match_category`). -/
def containsFind (cfg : ClassifierCfg) (header_norm : List String) :
    List (String × List String) → Option String
  | [] => none
  | (cat, required_cols) :: rest =>
    if containsAll header_norm (normalize_header cfg required_cols) then some cat
    else containsFind cfg header_norm rest

/-- First category whose precomputed key equals the header's key (the
`exact` loop of `_match_category`). -/
def exactFind (key : HeaderKey) : List (String × HeaderKey) → Option String
  | [] => none
  | (cat, sig_key) :: rest =>
    if key = sig_key then some cat else exactFind key rest

/-- `CSVClassifier._match_category`. -/
def match_category (cfg : ClassifierCfg) (header_norm : List String) :
    Option String :=
  if cfg.signatures.isEmpty then none
  else if cfg.matchStrat = "contains" then
    containsFind cfg header_norm cfg.signatures
  else
    exactFind (header_key header_norm cfg.mode) (signature_keys cfg)

/-! ## SHA-256 (needed by `_auto_category`)

A complete executable SHA-256 over byte lists, with 32-bit words modelled as
`Nat` reduced modulo `2 ^ 32`. -/

/-- Reduce to a 32-bit word. -/
def w32 (n : Nat) : Nat := n % 4294967296

/-- Right rotation of a 32-bit word (the two shifted parts occupy disjoint
bit ranges, so their sum is their bitwise or). -/
def rotr32 (n x : Nat) : Nat :=
  (x / 2 ^ n + (x % 2 ^ n) * 2 ^ (32 - n)) % 4294967296

/-- Bitwise complement within 32 bits. -/
def not32 (x : Nat) : Nat := 4294967295 - x

def sha256ch (e f g : Nat) : Nat := (e &&& f) ^^^ (not32 e &&& g)

def sha256maj (a b c : Nat) : Nat := (a &&& b) ^^^ (a &&& c) ^^^ (b &&& c)

def bsig0 (x : Nat) : Nat := rotr32 2 x ^^^ rotr32 13 x ^^^ rotr32 22 x

def bsig1 (x : Nat) : Nat := rotr32 6 x ^^^ rotr32 11 x ^^^ rotr32 25 x

def ssig0 (x : Nat) : Nat := rotr32 7 x ^^^ rotr32 18 x ^^^ x / 2 ^ 3

def ssig1 (x : Nat) : Nat := rotr32 17 x ^^^ rotr32 19 x ^^^ x / 2 ^ 10

/-- The 64 SHA-256 round constants. -/
def sha256K : List Nat :=
  [1116352408, 1899447441, 3049323471, 3921009573,
   961987163, 1508970993, 2453635748, 2870763221,
   3624381080, 310598401, 607225278, 1426881987,
   1925078388, 2162078206, 2614888103, 3248222580,
   3835390401, 4022224774, 264347078, 604807628,
   770255983, 1249150122, 1555081692, 1996064986,
   2554220882, 2821834349, 2952996808, 3210313671,
   3336571891, 3584528711, 113926993, 338241895,
   666307205, 773529912, 1294757372, 1396182291,
   1695183700, 1986661051, 2177026350, 2456956037,
   2730485921, 2820302411, 3259730800, 3345764771,
   3516065817, 3600352804, 4094571909, 275423344,
   430227734, 506948616, 659060556, 883997877,
   958139571, 1322822218, 1537002063, 1747873779,
   1955562222, 2024104815, 2227730452, 2361852424,
   2428436474, 2756734187, 3204031479, 3329325298]

/-- SHA-256 padding: append 0x80, zero bytes to reach 56 mod 64, then the
bit length as 8 big-endian bytes. -/
def sha256pad (msg : List Nat) : List Nat :=
  let L := msg.length
  msg ++ 128 :: List.replicate ((119 - L % 64) % 64) 0
      ++ (List.range 8).map (fun i => 8 * L / 2 ^ (8 * (7 - i)) % 256)

/-- Group bytes into big-endian 32-bit words. -/
def bytesToWords : List Nat → List Nat
  | a :: b :: c :: d :: rest =>
    (a * 16777216 + b * 65536 + c * 256 + d) :: bytesToWords rest
  | _ => []

/-- Split a word list into chunks of 16 words (structural recursion on a
fuel bounded by the list length, so the definition reduces). -/
def chunks16Aux : Nat → List Nat → List (List Nat)
  | 0, _ => []
  | _, [] => []
  | fuel + 1, w :: ws => ((w :: ws).take 16) :: chunks16Aux fuel ((w :: ws).drop 16)

/-- Split a word list into chunks of 16 words. -/
def chunks16 (l : List Nat) : List (List Nat) :=
  chunks16Aux l.length l

/-- Extend a 16-word chunk by `n` schedule words. -/
def extendSched (w : List Nat) : Nat → List Nat
  | 0 => w
  | n + 1 =>
    let v := extendSched w n
    let k := v.length
    v ++ [w32 (ssig1 (v.getD (k - 2) 0) + v.getD (k - 7) 0
           + ssig0 (v.getD (k - 15) 0) + v.getD (k - 16) 0)]

/-- The eight working variables of the compression function. -/
structure Hash8 where
  a : Nat
  b : Nat
  c : Nat
  d : Nat
  e : Nat
  f : Nat
  g : Nat
  h : Nat
deriving DecidableEq, Repr

/-- Initial hash value. -/
def sha256H0 : Hash8 :=
  ⟨1779033703, 3144134277, 1013904242, 2773480762,
   1359893119, 2600822924, 528734635, 1541459225⟩

/-- One compression round with round constant `k` and schedule word `w`. -/
def sha256round (s : Hash8) (kw : Nat × Nat) : Hash8 :=
  let t1 := w32 (s.h + bsig1 s.e + sha256ch s.e s.f s.g + kw.1 + kw.2)
  let t2 := w32 (bsig0 s.a + sha256maj s.a s.b s.c)
  ⟨w32 (t1 + t2), s.a, s.b, s.c, w32 (s.d + t1), s.e, s.f, s.g⟩

/-- Process one 16-word chunk. -/
def sha256chunk (s : Hash8) (chunk : List Nat) : Hash8 :=
  let ws := extendSched chunk 48
  let t := (sha256K.zip ws).foldl sha256round s
  ⟨w32 (s.a + t.a), w32 (s.b + t.b), w32 (s.c + t.c), w32 (s.d + t.d),
   w32 (s.e + t.e), w32 (s.f + t.f), w32 (s.g + t.g), w32 (s.h + t.h)⟩

/-- Lowercase hex digit. -/
def hexDigit : Nat → Char
  | 0 => '0' | 1 => '1' | 2 => '2' | 3 => '3'
  | 4 => '4' | 5 => '5' | 6 => '6' | 7 => '7'
  | 8 => '8' | 9 => '9' | 10 => 'a' | 11 => 'b'
  | 12 => 'c' | 13 => 'd' | 14 => 'e' | _ => 'f'

/-- A 32-bit word as 8 lowercase hex characters. -/
def toHex8 (n : Nat) : String :=
  ⟨(List.range 8).map fun i => hexDigit (n / 16 ^ (7 - i) % 16)⟩

/-- `hashlib.sha256(bytes).hexdigest()`: the 64-character lowercase hex
digest of a byte list. -/
def sha256hex (msg : List Nat) : String :=
  let fin := (chunks16 (bytesToWords (sha256pad msg))).foldl sha256chunk sha256H0
  toHex8 fin.a ++ toHex8 fin.b ++ toHex8 fin.c ++ toHex8 fin.d
    ++ toHex8 fin.e ++ toHex8 fin.f ++ toHex8 fin.g ++ toHex8 fin.h

/-- UTF-8 encoding of one character as bytes. -/
def utf8EncodeChar (c : Char) : List Nat :=
  let n := c.toNat
  if n < 128 then [n]
  else if n < 2048 then [192 + n / 64, 128 + n % 64]
  else if n < 65536 then [224 + n / 4096, 128 + n / 64 % 64, 128 + n % 64]
  else [240 + n / 262144, 128 + n / 4096 % 64, 128 + n / 64 % 64, 128 + n % 64]

/-- Python `s.encode("utf-8")` as a byte list. -/
def utf8Bytes (s : String) : List Nat :=
  s.data.flatMap utf8EncodeChar

/-! ## Auto category naming (`_auto_category`) -/

/-- Characters allowed by the sanitizing regex class `[A-Za-z0-9._-]`. -/
def isAllowedChar (c : Char) : Bool :=
  (65 ≤ c.toNat && c.toNat ≤ 90) || (97 ≤ c.toNat && c.toNat ≤ 122)
    || isDigitChar c || c = '.' || c = '_' || c = '-'

/-- Replace every maximal run of disallowed characters by one underscore
(Python `re.sub` with pattern class-complement-plus and replacement
underscore).  The flag records whether the previous character was part of a
disallowed run. -/
def squashRunsAux : Bool → List Char → List Char
  | _, [] => []
  | prevBad, c :: rest =>
    if isAllowedChar c then c :: squashRunsAux false rest
    else if prevBad then squashRunsAux true rest
    else '_' :: squashRunsAux true rest

/-- Replace every maximal run of characters outside `[A-Za-z0-9._-]` with a
single underscore. -/
def squashRuns (s : String) : String :=
  ⟨squashRunsAux false s.data⟩

/-- Python `s.strip("_")`: drop leading and trailing underscores. -/
def stripUnderscores (s : String) : String :=
  ⟨((s.data.dropWhile (· = '_')).reverse.dropWhile (· = '_')).reverse⟩

/-- `CSVClassifier._auto_category`: deterministic cluster name from the
header key — a sanitized human hint from the first 6 key columns plus the
first 10 hex characters of the SHA-256 of all key columns joined with the
0x1F unit separator. -/
def auto_category (cfg : ClassifierCfg) (header_norm : List String) : String :=
  let key := header_key header_norm cfg.mode
  let hint0 := String.intercalate "__" (key.cols.take 6)
  let hint1 := hint0.take 60
  let hint2 := stripUnderscores (squashRuns hint1)
  let hint := if hint2 = "" then "empty" else hint2
  let payload := utf8Bytes (String.intercalate "\x1f" key.cols)
  let digest := (sha256hex payload).take 10
  "cluster_" ++ hint ++ "__h" ++ digest

/-! ## Filesystem state, operation records, manifest -/

/-- Explicit filesystem state: the set of existing files and of existing
directories, as lists of absolute paths. -/
structure FS where
  files : List String
  dirs : List String
deriving DecidableEq, Repr

/-- `Path.exists()` for a file path. -/
def FS.fileExists (fs : FS) (p : String) : Bool :=
  fs.files.contains p

/-- `mkdir(parents=True, exist_ok=True)`: record the directory (idempotent;
ancestors are abstracted away, only the created directory is tracked). -/
def FS.mkdirParents (fs : FS) (d : String) : FS :=
  { fs with dirs := if fs.dirs.contains d then fs.dirs else fs.dirs ++ [d] }

/-- `shutil.move(src, dst)`: the file stops existing at `src` and exists at
`dst`. -/
def FS.move (fs : FS) (src dst : String) : FS :=
  let rest := fs.files.erase src
  { fs with files := if rest.contains dst then rest else rest ++ [dst] }

/-- One manifest operation record (the dict built by `_move_file`).
`moved_to` is `none` when the key is absent from the dict. -/
structure Op where
  original_path : String
  planned_to : String
  category : String
  headers : List String
  status : String
  moved_to : Option String
deriving DecidableEq, Repr

/-- The in-memory manifest built by `__init__` and mutated during a run. -/
structure Manifest where
  source_path : String
  timestamp : String
  mode : String
  matchStrat : String
  report_only : Bool
  operations : List Op
deriving DecidableEq, Repr

/-- The manifest as `__init__` creates it, with the operations accumulated
by a run. -/
def mkManifest (cfg : ClassifierCfg) (timestamp : String) (ops : List Op) :
    Manifest :=
  { source_path := cfg.source, timestamp := timestamp, mode := cfg.mode,
    matchStrat := cfg.matchStrat, report_only := cfg.report_only,
    operations := ops }

/-- Mutable state threaded through a run: filesystem, accumulated operation
records, printed output lines. -/
structure RunState where
  fs : FS
  ops : List Op
  out : List String
deriving DecidableEq, Repr

/-! ## `_move_file` -/

/-- `CSVClassifier._move_file`.  `ts` is the `datetime.now()` timestamp
string used for a collision rename; `moveFails` models `shutil.move`
raising (the `except` branch). -/
def move_file (cfg : ClassifierCfg) (st : RunState) (file_path : String)
    (category : String) (headers_norm : List String) (ts : String)
    (moveFails : Bool) : RunState :=
  let target_dir := pathJoin cfg.dest category
  let dest_file := pathJoin target_dir (pathName file_path)
  let op : Op :=
    { original_path := file_path, planned_to := dest_file,
      category := category, headers := headers_norm,
      status := "pending", moved_to := none }
  if cfg.report_only then
    { st with ops := st.ops ++ [{ op with status := "planned" }] }
  else if cfg.dry_run then
    { st with
      ops := st.ops ++ [{ op with status := "simulated" }],
      out := st.out ++
        ["[DRY RUN] Would move: " ++ pathName file_path ++ " -> " ++ category ++ "/"] }
  else
    let fs1 := st.fs.mkdirParents target_dir
    let collided := fs1.fileExists dest_file
    let dest_file2 :=
      if collided then
        pathJoin target_dir
          (nameStem (pathName file_path) ++ "_" ++ ts ++ nameSuffix (pathName file_path))
      else dest_file
    let op := if collided then { op with planned_to := dest_file2 } else op
    if moveFails then
      { fs := fs1,
        ops := st.ops ++ [{ op with status := "failed" }],
        out := st.out ++ ["Failed to move " ++ pathName file_path] }
    else
      { fs := fs1.move file_path dest_file2,
        ops := st.ops ++ [{ op with status := "success", moved_to := some dest_file2 }],
        out := st.out ++ ["Moved: " ++ pathName file_path ++ " -> " ++ category ++ "/"] }

/-! ## `_save_manifest` -/

/-- `CSVClassifier._save_manifest`.  Returns the filesystem after the call,
the persisted manifest (path and content) if one was written, and the
printed lines.  `ts` is the `datetime.now()` save timestamp. -/
def save_manifest (cfg : ClassifierCfg) (m : Manifest) (fs : FS) (ts : String) :
    FS × Option (String × Manifest) × List String :=
  if m.operations.isEmpty then (fs, none, [])
  else if cfg.dry_run then (fs, none, [])
  else
    let manifest_path := pathJoin cfg.dest ("manifest_" ++ ts ++ ".json")
    let fs1 := fs.mkdirParents cfg.dest
    let fs2 := { fs1 with files := fs1.files ++ [manifest_path] }
    (fs2, some (manifest_path, m), ["Manifest saved: " ++ manifest_path])

/-! ## `rollback` -/

/-- An operation record as read back from a persisted manifest by
`rollback` (`op.get(...)`: optional fields are `Option`s). -/
structure RbOp where
  status : String
  moved_to : Option String
  planned_to : Option String
  original_path : String
deriving DecidableEq, Repr

/-- A manifest as loaded by `json.load` in `rollback`. -/
structure RbManifest where
  timestamp : String
  operations : List RbOp
deriving DecidableEq, Repr

/-- Outcome of locating and parsing the manifest file: missing path,
malformed JSON (`json.load` raises), or the parsed data. -/
inductive LoadResult where
  | notFound : LoadResult
  | corrupt : LoadResult
  | ok : RbManifest → LoadResult
deriving DecidableEq, Repr

/-- Python `a or b` on optional strings (an absent key and an empty string
are both falsy). -/
def pyOrStr (a b : Option String) : Option String :=
  if a.getD "" ≠ "" then a else b

/-- One iteration of the rollback loop over a record. -/
def rollback_step (dry_run : Bool) (acc : FS × List String) (op : RbOp) :
    FS × List String :=
  if op.status ≠ "success" then acc
  else
    let moved_to := pyOrStr op.moved_to op.planned_to
    if moved_to.getD "" = "" then
      (acc.1, acc.2 ++ ["Warning: manifest op missing moved_to/planned_to; skipping"])
    else
      let current_loc := moved_to.getD ""
      if ¬ acc.1.fileExists current_loc then
        (acc.1, acc.2 ++ ["Warning: Could not find file to restore: " ++ current_loc])
      else if dry_run then
        (acc.1, acc.2 ++
          ["[DRY RUN] Would restore: " ++ pathName current_loc ++ " -> " ++ op.original_path])
      else
        ((acc.1.mkdirParents (pathParent op.original_path)).move current_loc op.original_path,
         acc.2 ++ ["Restored: " ++ pathName current_loc])

/-- `CSVClassifier.rollback`.  A missing manifest prints an error and
returns; a corrupt manifest makes `json.load` raise, modelled as `.error`
(the exception propagates before any filesystem access); otherwise the
records are folded in recorded order. -/
def rollback (dry_run : Bool) (load : LoadResult) (fs : FS) :
    Except String (FS × List String) :=
  match load with
  | .notFound => .ok (fs, ["Error: Manifest not found."])
  | .corrupt => .error "json.JSONDecodeError"
  | .ok data =>
    .ok (data.operations.foldl (rollback_step dry_run)
      (fs, ["Starting rollback for session: " ++ data.timestamp]))

/-! ## `run` -/

/-- One candidate file of a run: its path, the outcome of reading its first
row, the timestamp `datetime.now()` would produce for its collision rename,
and whether `shutil.move` would raise for it. -/
structure FileInput where
  path : String
  outcome : ReadOutcome
  ts : String
  moveFails : Bool
deriving Repr

/-- The category chosen by `run` for a normalized header. -/
def chooseCategory (cfg : ClassifierCfg) (header_norm : List String) : String :=
  match match_category cfg header_norm with
  | some c => c
  | none => if cfg.auto then auto_category cfg header_norm else "unclassified"

/-- The per-file body of the loop in `CSVClassifier.run`. -/
def run_step (cfg : ClassifierCfg) (st : RunState) (fi : FileInput) : RunState :=
  match read_header_row fi.path fi.outcome with
  | none => move_file cfg st fi.path "unclassified" [] fi.ts fi.moveFails
  | some header_raw =>
    let header_norm := normalize_header cfg header_raw
    move_file cfg st fi.path (chooseCategory cfg header_norm) header_norm
      fi.ts fi.moveFails

/-- The loop of `CSVClassifier.run` over the globbed files (the source also
accumulates a `seen` set of header keys that nothing reads; it is omitted
here as it has no effect). -/
def run_files (cfg : ClassifierCfg) (st : RunState) (files : List FileInput) :
    RunState :=
  files.foldl (run_step cfg) st

/-- `CSVClassifier.run`: guard on the source directory, loop over the
files, save the manifest.  `manifestTs` is the construction-time manifest
timestamp, `saveTs` the save-time one.  Returns the final state and the
persisted manifest, if any. -/
def run (cfg : ClassifierCfg) (sourceIsDir : Bool) (fs : FS)
    (files : List FileInput) (manifestTs saveTs : String) :
    RunState × Option (String × Manifest) :=
  if ¬ sourceIsDir then
    (⟨fs, [], ["Error: Source directory " ++ cfg.source ++ " does not exist."]⟩, none)
  else
    let st := run_files cfg ⟨fs, [], []⟩ files
    let res := save_manifest cfg (mkManifest cfg manifestTs st.ops) st.fs saveTs
    ({ st with fs := res.1, out := st.out ++ res.2.2 }, res.2.1)

/-! ## Concrete configurations used by witnesses and counterexamples -/

/-- A contains-mode configuration with a normal signature followed by a
catch-all. -/
def cfgUsers : ClassifierCfg :=
  { source := "/s", dest := "/d",
    signatures := [("Users", ["user_id", "email"]), ("All", [])],
    matchStrat := "contains" }

/-- A relaxed-mode auto-clustering configuration with no signatures. -/
def cfgRelaxed : ClassifierCfg :=
  { source := "/s", dest := "/d", signatures := [], mode := "relaxed" }

/-- A contains-mode configuration whose first category requires nothing. -/
def cfgCatchAll : ClassifierCfg :=
  { source := "/s", dest := "/d",
    signatures := [("CatchAll", []), ("Users", ["user_id"])],
    matchStrat := "contains" }

/-- Report-only (and also dry-run) configuration: the report branch must
win. -/
def cfgReportDry : ClassifierCfg :=
  { source := "/s", dest := "/d", signatures := [],
    report_only := true, dry_run := true }

/-- Report-only configuration. -/
def cfgReport : ClassifierCfg :=
  { source := "/s", dest := "/d", signatures := [], report_only := true }

/-- Dry-run configuration. -/
def cfgDry : ClassifierCfg :=
  { source := "/s", dest := "/d", signatures := [], dry_run := true }

/-- Apply-mode configuration (neither report-only nor dry-run). -/
def cfgApply : ClassifierCfg :=
  { source := "/s", dest := "/d", signatures := [] }

/-- A starting run state with one source file and nothing else. -/
def stA : RunState :=
  ⟨⟨["/s/a.csv"], []⟩, [], []⟩

/-- A one-record operations list. -/
def demoOps : List Op :=
  [{ original_path := "/s/a.csv", planned_to := "/d/X/a.csv", category := "X",
     headers := ["a"], status := "planned", moved_to := none }]

/-- A successfully-moved record, as read back from a manifest. -/
def rbGood : RbOp :=
  { status := "success", moved_to := some "/d/X/a.csv",
    planned_to := some "/d/X/a.csv", original_path := "/s/a.csv" }

/-- A success record with neither location field. -/
def rbMissing : RbOp :=
  { status := "success", moved_to := none, planned_to := none,
    original_path := "/s/b.csv" }

/-- A failed record: rollback must skip it. -/
def rbFailed : RbOp :=
  { status := "failed", moved_to := none, planned_to := none,
    original_path := "/s/c.csv" }

/-- A destination filesystem containing the moved file. -/
def fsDest : FS :=
  ⟨["/d/X/a.csv"], ["/d", "/d/X"]⟩

/-- A loaded manifest with one failed and one success record. -/
def rbData : RbManifest :=
  ⟨"2025-01-01T00:00:00", [rbFailed, rbGood]⟩

/-! ## Helper lemmas: the string order underlying `sortedDedup` -/

theorem char_eq_of_toNat_eq {a b : Char} (h : a.toNat = b.toNat) : a = b := by
  cases a with | mk av ah =>
  cases b with | mk bv bh =>
  cases av; cases bv
  simp only [Char.toNat, UInt32.toNat] at h
  congr 1
  congr 1
  exact BitVec.eq_of_toNat_eq h

theorem charListLt_asymm (a b : List Char) (h : charListLt a b = true) :
    charListLt b a = false := by
  induction a generalizing b with
  | nil =>
    cases b with
    | nil => simp [charListLt] at h
    | cons d ds => simp [charListLt]
  | cons c cs ih =>
    cases b with
    | nil => simp [charListLt] at h
    | cons d ds =>
      simp only [charListLt] at h ⊢
      by_cases h1 : c.toNat < d.toNat
      · have h2 : ¬ d.toNat < c.toNat := by omega
        simp [h1, h2]
      · by_cases h2 : d.toNat < c.toNat
        · simp [h1, h2] at h
        · simp [h1, h2] at h ⊢
          exact ih _ h

theorem charListLt_connex (a b : List Char) (h1 : charListLt a b = false)
    (h2 : charListLt b a = false) : a = b := by
  induction a generalizing b with
  | nil =>
    cases b with
    | nil => rfl
    | cons d ds => simp [charListLt] at h1
  | cons c cs ih =>
    cases b with
    | nil => simp [charListLt] at h2
    | cons d ds =>
      simp only [charListLt] at h1 h2
      by_cases g1 : c.toNat < d.toNat
      · simp [g1] at h1
      · by_cases g2 : d.toNat < c.toNat
        · simp [g1, g2] at h2
        · have hc : c = d := char_eq_of_toNat_eq (by omega)
          subst hc
          simp [g1, g2] at h1 h2
          rw [ih _ h1 h2]

theorem charListLt_trans (a b c : List Char) (h1 : charListLt a b = true)
    (h2 : charListLt b c = true) : charListLt a c = true := by
  induction a generalizing b c with
  | nil =>
    cases c with
    | nil =>
      cases b with
      | nil => simp [charListLt] at h1
      | cons y ys => simp [charListLt] at h2
    | cons z zs => simp [charListLt]
  | cons x xs ih =>
    cases b with
    | nil => simp [charListLt] at h1
    | cons y ys =>
      cases c with
      | nil => simp [charListLt] at h2
      | cons z zs =>
        simp only [charListLt] at h1 h2 ⊢
        by_cases g1 : x.toNat < y.toNat
        · by_cases g2 : y.toNat < z.toNat
          · simp [show x.toNat < z.toNat by omega]
          · by_cases g3 : z.toNat < y.toNat
            · simp [g2, g3] at h2
            · simp [show x.toNat < z.toNat by omega]
        · by_cases g4 : y.toNat < x.toNat
          · simp [g1, g4] at h1
          · by_cases g2 : y.toNat < z.toNat
            · simp [show x.toNat < z.toNat by omega]
            · by_cases g3 : z.toNat < y.toNat
              · simp [g2, g3] at h2
              · have e1 : ¬ x.toNat < z.toNat := by omega
                have e2 : ¬ z.toNat < x.toNat := by omega
                simp [g1, g4] at h1
                simp [g2, g3] at h2
                simp [e1, e2]
                exact ih _ _ h1 h2

theorem strLe_total (a b : String) : strLe a b ∨ strLe b a := by
  unfold strLe
  by_cases h : charListLt b.data a.data = true
  · right
    exact charListLt_asymm _ _ h
  · left
    simpa using h

theorem strLe_trans (a b c : String) (h1 : strLe a b) (h2 : strLe b c) :
    strLe a c := by
  unfold strLe at h1 h2 ⊢
  by_contra hc
  have hca : charListLt c.data a.data = true := by
    cases h : charListLt c.data a.data
    · exact absurd h hc
    · rfl
  by_cases hbc : charListLt b.data c.data = true
  · have : charListLt b.data a.data = true := charListLt_trans _ _ _ hbc hca
    simp [this] at h1
  · have hbceq : b.data = c.data :=
      charListLt_connex _ _ (by simpa using hbc) h2
    rw [hbceq] at h1
    simp [h1] at hca

theorem strLe_antisymm (a b : String) (h1 : strLe a b) (h2 : strLe b a) :
    a = b := by
  have : a.data = b.data := charListLt_connex _ _ h2 h1
  cases a with | mk d1 =>
  cases b with | mk d2 =>
  exact congrArg String.mk this

/-- `sortedDedup` only depends on the multiset of elements: permuting the
input leaves the result unchanged. -/
theorem sortedDedup_eq_of_perm {l₁ l₂ : List String} (h : l₁.Perm l₂) :
    sortedDedup l₁ = sortedDedup l₂ := by
  haveI ht : IsTotal String strLe := ⟨strLe_total⟩
  haveI htr : IsTrans String strLe := ⟨strLe_trans⟩
  haveI ha : IsAntisymm String strLe := ⟨strLe_antisymm⟩
  exact List.eq_of_perm_of_sorted
    (((List.perm_insertionSort strLe _).trans h.dedup).trans
      (List.perm_insertionSort strLe _).symm)
    (List.sorted_insertionSort strLe _) (List.sorted_insertionSort strLe _)

/-! ## Helper lemmas: `move_file` and `run_step` append exactly one record -/

/-- Whatever the mode, `_move_file` appends exactly one operation record, in
a terminal status, carrying the category, path and headers it was given. -/
theorem move_file_appends (cfg : ClassifierCfg) (st : RunState) (fp cat : String)
    (hn : List String) (ts : String) (mf : Bool) :
    ∃ op : Op, (move_file cfg st fp cat hn ts mf).ops = st.ops ++ [op]
      ∧ op.category = cat ∧ op.original_path = fp ∧ op.headers = hn
      ∧ op.status ∈ (["planned", "simulated", "success", "failed"] : List String) := by
  unfold move_file
  by_cases hro : cfg.report_only
  · simp [hro]
  · by_cases hdr : cfg.dry_run
    · simp [hro, hdr]
    · by_cases hmf : mf
      · by_cases hcol : (st.fs.mkdirParents (pathJoin cfg.dest cat)).fileExists
            (pathJoin (pathJoin cfg.dest cat) (pathName fp))
        · simp [hro, hdr, hmf, hcol]
        · simp [hro, hdr, hmf, hcol]
      · by_cases hcol : (st.fs.mkdirParents (pathJoin cfg.dest cat)).fileExists
            (pathJoin (pathJoin cfg.dest cat) (pathName fp))
        · simp [hro, hdr, hmf, hcol]
        · simp [hro, hdr, hmf, hcol]

/-- Each loop iteration of `run` appends exactly one terminal-status record. -/
theorem run_step_appends (cfg : ClassifierCfg) (st : RunState) (fi : FileInput) :
    ∃ op : Op, (run_step cfg st fi).ops = st.ops ++ [op]
      ∧ op.original_path = fi.path
      ∧ op.status ∈ (["planned", "simulated", "success", "failed"] : List String) := by
  unfold run_step
  cases hr : read_header_row fi.path fi.outcome with
  | none =>
    obtain ⟨op, h1, _, h3, _, h5⟩ := move_file_appends cfg st fi.path "unclassified" [] fi.ts fi.moveFails
    exact ⟨op, h1, h3, h5⟩
  | some header_raw =>
    obtain ⟨op, h1, _, h3, _, h5⟩ := move_file_appends cfg st fi.path
      (chooseCategory cfg (normalize_header cfg header_raw))
      (normalize_header cfg header_raw) fi.ts fi.moveFails
    exact ⟨op, h1, h3, h5⟩

/-! ## Claim theorems -/

/-- C8: HeaderKey construction is reflexive; under strict mode the key
preserves the columns' order and duplicates unchanged; under relaxed mode
the key is the sorted deduplicated tuple, so it is invariant under
permutation of the header. -/
theorem C8_header_key (H H' : List String) (mode : String) :
    (header_key H mode = header_key H mode)
    ∧ (header_key H "strict").cols = H
    ∧ (header_key H "relaxed").cols = sortedDedup H
    ∧ (H.Perm H' → header_key H "relaxed" = header_key H' "relaxed") := by
  refine ⟨rfl, rfl, ?_, ?_⟩
  · unfold header_key
    rw [if_neg (by decide)]
  · intro hp
    unfold header_key
    rw [if_neg (by decide), if_neg (by decide), sortedDedup_eq_of_perm hp]

/-- Witness for C8 at a concrete permuted pair of headers. -/
theorem C8_header_key_witness :
    header_key ["b", "a"] "relaxed" = header_key ["a", "b"] "relaxed" :=
  (C8_header_key ["b", "a"] ["a", "b"] "relaxed").2.2.2 (List.Perm.swap "a" "b" [])

/-- C6: header extraction returns `None` exactly for a non-.csv extension,
an undecodable/unparsable file, a missing or empty first row, or a purely
numeric first row; a cell is numeric iff after removing at most one decimal
point the (nonempty) remainder is all decimal digits; a row with zero
non-blank cells is not purely numeric; `["1","2","3"]` yields `None` while
`["1","b"]` yields a header. -/
theorem C6_read_header_row_none :
    (∀ (p : String) (oc : ReadOutcome),
      read_header_row p oc = none ↔
        (pyLower (pathSuffix p) ≠ ".csv" ∨ oc = .decodeError ∨ oc = .rows none ∨
         oc = .rows (some []) ∨
         ∃ r, oc = .rows (some r) ∧ is_purely_numeric_row r = true))
    ∧ (∀ s : String, is_num s = true ↔
        (removeFirstDot s.data ≠ [] ∧ ∀ c ∈ removeFirstDot s.data, isDigitChar c = true))
    ∧ (∀ row : List String, (row.map pyStrip).filter (· ≠ "") = [] →
        is_purely_numeric_row row = false)
    ∧ read_header_row "/src/f.csv" (.rows (some ["1", "2", "3"])) = none
    ∧ read_header_row "/src/f.csv" (.rows (some ["1", "b"])) = some ["1", "b"] := by
  refine ⟨?_, ?_, ?_, by decide, by decide⟩
  · intro p oc
    unfold read_header_row
    by_cases hs : pyLower (pathSuffix p) = ".csv"
    · rw [if_neg (by simp [hs])]
      cases oc with
      | decodeError => simp
      | rows o =>
        cases o with
        | none => simp
        | some r =>
          by_cases hr : r.isEmpty
          · have hre : r = [] := by simpa using hr
            subst hre
            simp [hs]
          · have hre : r ≠ [] := by simpa using hr
            by_cases hn : is_purely_numeric_row r
            · simp only [hr, Bool.false_eq_true, if_false, hn, if_true]
              constructor
              · intro _
                exact Or.inr (Or.inr (Or.inr (Or.inr ⟨r, rfl, hn⟩)))
              · intro _
                exact trivial
            · simp [hr, hn, hs, hre]
    · rw [if_pos (by simpa using hs)]
      simp [hs]
  · intro s
    show (!(removeFirstDot s.data).isEmpty && (removeFirstDot s.data).all isDigitChar) = true ↔ _
    simp [List.all_eq_true]
  · intro row h
    show (if ((row.map pyStrip).filter (· ≠ "")).isEmpty then false
          else ((row.map pyStrip).filter (· ≠ "")).all is_num) = false
    rw [h]
    decide

/-- Witness for C6 at concrete rows. -/
theorem C6_read_header_row_none_witness :
    is_purely_numeric_row ["", "   "] = false
    ∧ (read_header_row "/src/g.txt" (.rows (some ["a"])) = none) :=
  ⟨C6_read_header_row_none.2.2.1 ["", "   "] (by decide),
   (C6_read_header_row_none.1 "/src/g.txt" (.rows (some ["a"]))).mpr
     (Or.inl (by decide))⟩

/-- `containsFind` characterization, first-match direction: a returned
category is a satisfying entry all of whose predecessors fail. -/
theorem containsFind_some_iff (cfg : ClassifierCfg) (h : List String) :
    ∀ (sigs : List (String × List String)) (c : String),
      containsFind cfg h sigs = some c ↔
        ∃ pre req post, sigs = pre ++ (c, req) :: post
          ∧ containsAll h (normalize_header cfg req) = true
          ∧ ∀ p ∈ pre, containsAll h (normalize_header cfg p.2) = false := by
  intro sigs
  induction sigs with
  | nil =>
    intro c
    simp [containsFind]
  | cons hd rest ih =>
    intro c
    obtain ⟨cat, req⟩ := hd
    by_cases hsat : containsAll h (normalize_header cfg req) = true
    · simp only [containsFind, hsat, if_true]
      constructor
      · intro hc
        obtain rfl : cat = c := by simpa using hc
        exact ⟨[], req, rest, rfl, hsat, by simp⟩
      · rintro ⟨pre, req', post, he, hs, hpre⟩
        cases pre with
        | nil =>
          obtain ⟨⟨rfl, rfl⟩, rfl⟩ : (cat = c ∧ req = req') ∧ rest = post := by
            simpa using he
          rfl
        | cons q qre =>
          obtain ⟨rfl, _⟩ : (cat, req) = q ∧ rest = qre ++ (c, req') :: post := by
            simpa using he
          have hfalse := hpre (cat, req) (by simp)
          rw [hsat] at hfalse
          cases hfalse
    · have hsat' : containsAll h (normalize_header cfg req) = false := by
        cases hx : containsAll h (normalize_header cfg req)
        · rfl
        · exact absurd hx hsat
      simp only [containsFind, hsat', Bool.false_eq_true, if_false]
      rw [ih c]
      constructor
      · rintro ⟨pre, req', post, he, hs, hpre⟩
        refine ⟨(cat, req) :: pre, req', post, by simp [he], hs, ?_⟩
        intro p hp
        rcases List.mem_cons.mp hp with hp1 | hp2
        · rw [hp1]
          exact hsat'
        · exact hpre p hp2
      · rintro ⟨pre, req', post, he, hs, hpre⟩
        cases pre with
        | nil =>
          obtain ⟨⟨rfl, rfl⟩, rfl⟩ : (cat = c ∧ req = req') ∧ rest = post := by
            simpa using he
          exact absurd hs hsat
        | cons q qre =>
          obtain ⟨rfl, hrest⟩ : (cat, req) = q ∧ rest = qre ++ (c, req') :: post := by
            simpa using he
          exact ⟨qre, req', post, hrest, hs, fun p hp => hpre p (List.mem_cons_of_mem _ hp)⟩

/-- `containsFind` returns nothing iff no entry satisfies the predicate. -/
theorem containsFind_none_iff (cfg : ClassifierCfg) (h : List String) :
    ∀ sigs : List (String × List String),
      containsFind cfg h sigs = none ↔
        ∀ p ∈ sigs, containsAll h (normalize_header cfg p.2) = false := by
  intro sigs
  induction sigs with
  | nil => simp [containsFind]
  | cons hd rest ih =>
    obtain ⟨cat, req⟩ := hd
    by_cases hsat : containsAll h (normalize_header cfg req) = true
    · simp [containsFind, hsat]
    · have hsat' : containsAll h (normalize_header cfg req) = false := by
        cases hx : containsAll h (normalize_header cfg req)
        · rfl
        · exact absurd hx hsat
      simp only [containsFind, hsat', Bool.false_eq_true, if_false]
      rw [ih]
      constructor
      · intro hall p hp
        rcases List.mem_cons.mp hp with hp1 | hp2
        · rw [hp1]
          exact hsat'
        · exact hall p hp2
      · intro hall p hp
        exact hall p (List.mem_cons_of_mem _ hp)

/-- The mode field has no effect on `containsFind`. -/
theorem containsFind_mode_indep (cfg : ClassifierCfg) (m : String)
    (h : List String) :
    ∀ sigs, containsFind { cfg with mode := m } h sigs = containsFind cfg h sigs := by
  intro sigs
  induction sigs with
  | nil => rfl
  | cons hd rest ih =>
    obtain ⟨cat, req⟩ := hd
    show (if containsAll h (normalize_header { cfg with mode := m } req) = true
          then some cat else containsFind { cfg with mode := m } h rest) = _
    rw [ih]
    rfl

/-- C7: under the contains strategy the matcher returns category C iff
every normalized column of signature C is present in the header, categories
are tested in configuration order with the first satisfying one returned,
no satisfying category means `None`, and the predicate is independent of
the strict/relaxed mode. -/
theorem C7_contains_match (cfg : ClassifierCfg) (h : List String)
    (hm : cfg.matchStrat = "contains") :
    (∀ c : String, match_category cfg h = some c ↔
      ∃ pre req post, cfg.signatures = pre ++ (c, req) :: post
        ∧ containsAll h (normalize_header cfg req) = true
        ∧ ∀ p ∈ pre, containsAll h (normalize_header cfg p.2) = false)
    ∧ (match_category cfg h = none ↔
        ∀ p ∈ cfg.signatures, containsAll h (normalize_header cfg p.2) = false)
    ∧ (∀ m : String, match_category { cfg with mode := m } h = match_category cfg h) := by
  have hcf : ∀ c, containsFind cfg h cfg.signatures = some c ↔ _ :=
    fun c => containsFind_some_iff cfg h cfg.signatures c
  refine ⟨?_, ?_, ?_⟩
  · intro c
    unfold match_category
    by_cases hemp : cfg.signatures.isEmpty
    · have : cfg.signatures = [] := by simpa using hemp
      rw [if_pos hemp]
      simp [this]
    · rw [if_neg hemp, if_pos hm]
      exact containsFind_some_iff cfg h cfg.signatures c
  · unfold match_category
    by_cases hemp : cfg.signatures.isEmpty
    · have : cfg.signatures = [] := by simpa using hemp
      rw [if_pos hemp]
      simp [this]
    · rw [if_neg hemp, if_pos hm]
      exact containsFind_none_iff cfg h cfg.signatures
  · intro m
    unfold match_category
    by_cases hemp : cfg.signatures.isEmpty
    · rw [if_pos hemp, if_pos hemp]
    · rw [if_neg hemp, if_neg hemp, if_pos hm, if_pos hm]
      exact containsFind_mode_indep cfg m h cfg.signatures

/-- Witness for C7 on a concrete configuration: the first satisfying
category in configuration order is returned. -/
theorem C7_contains_match_witness :
    match_category cfgUsers ["user_id", "email", "signup_date"] = some "Users" :=
  ((C7_contains_match cfgUsers ["user_id", "email", "signup_date"] rfl).1
    "Users").mpr
    ⟨[], ["user_id", "email"], [("All", [])], rfl, by decide, by simp⟩

/-- C9: auto-category naming is the deterministic function of the header
key producing exactly `cluster_<hint>__h<digest10>` with hint built from
the first 6 key columns (joined by a fixed separator, truncated to 60
characters, disallowed-character runs collapsed to underscores, trimmed,
defaulting to "empty") and digest10 the first 10 hex characters of the
SHA-256 of all key columns joined with the 0x1F unit separator; the same
header always yields the same name, and under relaxed mode permuted
headers yield the same name. -/
theorem C9_auto_category (cfg : ClassifierCfg) (h h' : List String) :
    (auto_category cfg h =
      (let hint2 := stripUnderscores (squashRuns
        ((String.intercalate "__" ((header_key h cfg.mode).cols.take 6)).take 60))
       let digest := (sha256hex (utf8Bytes
        (String.intercalate "\x1f" (header_key h cfg.mode).cols))).take 10
       "cluster_" ++ (if hint2 = "" then "empty" else hint2) ++ "__h" ++ digest))
    ∧ (h = h' → auto_category cfg h = auto_category cfg h')
    ∧ (cfg.mode = "relaxed" → h.Perm h' →
        auto_category cfg h = auto_category cfg h') := by
  refine ⟨rfl, fun e => by rw [e], fun hmode hp => ?_⟩
  unfold auto_category
  rw [hmode]
  rw [(C8_header_key h h' "relaxed").2.2.2 hp]

set_option maxRecDepth 40000 in
/-- Witness for C9: a concrete permuted pair under relaxed mode gets the
same auto name, and the name evaluates to the documented shape. -/
theorem C9_auto_category_witness :
    auto_category cfgRelaxed ["temp", "humidity"]
      = auto_category cfgRelaxed ["humidity", "temp"]
    ∧ auto_category cfgRelaxed ["temp", "humidity"]
      = "cluster_humidity__temp__h4e22dc70b0" :=
  ⟨(C9_auto_category cfgRelaxed ["temp", "humidity"] ["humidity", "temp"]).2.2
      rfl (List.Perm.swap "humidity" "temp" []),
   by decide⟩

/-- C10 (implicit): under the contains strategy a configured category whose
required columns normalize to the empty list matches every header
vacuously, including the empty header; placed first in configuration
order, it captures every file with a usable header. -/
theorem C10_vacuous_first_category (cfg : ClassifierCfg) (cat : String)
    (req : List String) (rest : List (String × List String)) (h : List String)
    (hm : cfg.matchStrat = "contains")
    (hsig : cfg.signatures = (cat, req) :: rest)
    (hreq : normalize_header cfg req = []) :
    match_category cfg h = some cat
    ∧ match_category cfg [] = some cat
    ∧ ∀ (st : RunState) (fi : FileInput) (hdr : List String),
        read_header_row fi.path fi.outcome = some hdr →
        ∃ op : Op, (run_step cfg st fi).ops = st.ops ++ [op] ∧ op.category = cat := by
  have hmatch : ∀ hh : List String, match_category cfg hh = some cat := by
    intro hh
    unfold match_category
    rw [if_neg (by simp [hsig]), if_pos hm, hsig]
    show (if containsAll hh (normalize_header cfg req) = true
          then some cat else containsFind cfg hh rest) = some cat
    rw [hreq]
    rfl
  refine ⟨hmatch h, hmatch [], ?_⟩
  intro st fi hdr hread
  have hcat : chooseCategory cfg (normalize_header cfg hdr) = cat := by
    unfold chooseCategory
    rw [hmatch (normalize_header cfg hdr)]
  unfold run_step
  rw [hread]
  obtain ⟨op, h1, h2, _⟩ := move_file_appends cfg st fi.path
    (chooseCategory cfg (normalize_header cfg hdr)) (normalize_header cfg hdr)
    fi.ts fi.moveFails
  exact ⟨op, h1, by rw [h2, hcat]⟩

/-- Witness for C10: a first category with an empty requirement list
captures a file whose header shares nothing with it. -/
theorem C10_vacuous_first_category_witness :
    match_category cfgCatchAll ["x", "y"] = some "CatchAll" :=
  (C10_vacuous_first_category cfgCatchAll "CatchAll" [] [("Users", ["user_id"])]
      ["x", "y"] rfl rfl rfl).1

/-- A directory just created is present in the filesystem state. -/
theorem mem_mkdirParents (fs : FS) (d : String) : d ∈ (fs.mkdirParents d).dirs := by
  unfold FS.mkdirParents
  split
  · next h => exact List.mem_of_elem_eq_true h
  · simp

/-- `mkdirParents` never touches the file list. -/
theorem mkdirParents_files (fs : FS) (d : String) :
    (fs.mkdirParents d).files = fs.files := rfl

/-- C4: every record in the manifest's operations list has a terminal
status in {planned, simulated, success, failed} and never "pending"; each
candidate file contributes exactly one record, appended in enumeration
order (the records' original paths are the files' paths in order), and the
previously appended records are preserved unchanged. -/
theorem C4_manifest_invariant (cfg : ClassifierCfg) (st : RunState)
    (files : List FileInput) :
    ∃ newOps : List Op,
      (run_files cfg st files).ops = st.ops ++ newOps
      ∧ newOps.length = files.length
      ∧ newOps.map (fun o => o.original_path) = files.map (fun f => f.path)
      ∧ ∀ op ∈ newOps,
          op.status ∈ (["planned", "simulated", "success", "failed"] : List String)
          ∧ op.status ≠ "pending" := by
  induction files generalizing st with
  | nil => exact ⟨[], by simp [run_files], rfl, rfl, by simp⟩
  | cons f rest ih =>
    obtain ⟨op, h1, h2, h3⟩ := run_step_appends cfg st f
    obtain ⟨ops', g1, g2, g3, g4⟩ := ih (run_step cfg st f)
    refine ⟨op :: ops', ?_, by simp [g2], by simp [g3, h2], ?_⟩
    · show (run_files cfg (run_step cfg st f) rest).ops = _
      rw [g1, h1]
      simp
    · intro o ho
      rcases List.mem_cons.mp ho with rfl | hmem
      · refine ⟨h3, fun hpend => ?_⟩
        rw [hpend] at h3
        exact absurd h3 (by decide)
      · exact g4 o hmem

/-- Witness for C4 at a concrete run over one file. -/
theorem C4_manifest_invariant_witness :
    ∃ newOps : List Op,
      (run_files cfgReportDry stA
        [⟨"/s/a.csv", .rows (some ["a"]), "t", false⟩]).ops = stA.ops ++ newOps
      ∧ newOps.length = 1
      ∧ newOps.map (fun o => o.original_path) = ["/s/a.csv"]
      ∧ ∀ op ∈ newOps,
          op.status ∈ (["planned", "simulated", "success", "failed"] : List String)
          ∧ op.status ≠ "pending" :=
  C4_manifest_invariant cfgReportDry stA
    [⟨"/s/a.csv", .rows (some ["a"]), "t", false⟩]

/-- C1: with report_only set, `_move_file` leaves the filesystem untouched
and appends a "planned" record whose destination is the computed
(collision-unchecked) path, regardless of dry_run (priority); with
report_only unset and dry_run set it leaves the filesystem untouched and
appends a "simulated" record; `_save_manifest` persists nothing when
dry_run is set or the operations list is empty, and a report-only non-dry
run with at least one operation persists a manifest whose report_only
field is true. -/
theorem C1_report_dry_frame (cfg : ClassifierCfg) (st : RunState)
    (fp cat : String) (hn : List String) (ts : String) (mf : Bool)
    (m_ts save_ts : String) (ops : List Op) (fs : FS) :
    (cfg.report_only = true →
      (move_file cfg st fp cat hn ts mf).fs = st.fs
      ∧ (move_file cfg st fp cat hn ts mf).ops = st.ops ++
          [{ original_path := fp,
             planned_to := pathJoin (pathJoin cfg.dest cat) (pathName fp),
             category := cat, headers := hn, status := "planned",
             moved_to := none }])
    ∧ (cfg.report_only = false → cfg.dry_run = true →
      (move_file cfg st fp cat hn ts mf).fs = st.fs
      ∧ (move_file cfg st fp cat hn ts mf).ops = st.ops ++
          [{ original_path := fp,
             planned_to := pathJoin (pathJoin cfg.dest cat) (pathName fp),
             category := cat, headers := hn, status := "simulated",
             moved_to := none }])
    ∧ (cfg.dry_run = true ∨ ops = [] →
      save_manifest cfg (mkManifest cfg m_ts ops) fs save_ts = (fs, none, []))
    ∧ (cfg.report_only = true → cfg.dry_run = false → ops ≠ [] →
      ∃ (fs' : FS) (p : String) (out : List String),
        save_manifest cfg (mkManifest cfg m_ts ops) fs save_ts =
          (fs', some (p, mkManifest cfg m_ts ops), out)
        ∧ (mkManifest cfg m_ts ops).report_only = true) := by
  refine ⟨?_, ?_, ?_, ?_⟩
  · intro hro
    constructor
    · simp [move_file, hro]
    · simp [move_file, hro]
  · intro hro hdr
    constructor
    · simp [move_file, hro, hdr]
    · simp [move_file, hro, hdr]
  · intro hd
    show (if ops.isEmpty = true then (fs, none, [])
          else if cfg.dry_run = true then (fs, none, []) else _) = (fs, none, [])
    rcases hd with hdry | hops
    · by_cases hemp : ops.isEmpty = true
      · rw [if_pos hemp]
      · rw [if_neg hemp, if_pos hdry]
    · rw [if_pos (by simp [hops])]
  · intro hro hdr hne
    have hemp : ops.isEmpty = false := by
      cases hx : ops
      · exact absurd hx hne
      · rfl
    have heq : save_manifest cfg (mkManifest cfg m_ts ops) fs save_ts =
        ({ fs.mkdirParents cfg.dest with
            files := (fs.mkdirParents cfg.dest).files ++
              [pathJoin cfg.dest ("manifest_" ++ save_ts ++ ".json")] },
         some (pathJoin cfg.dest ("manifest_" ++ save_ts ++ ".json"),
           mkManifest cfg m_ts ops),
         ["Manifest saved: " ++ pathJoin cfg.dest ("manifest_" ++ save_ts ++ ".json")]) := by
      unfold save_manifest
      rw [show (mkManifest cfg m_ts ops).operations.isEmpty = false from hemp, hdr]
      simp
    exact ⟨_, _, _, heq, hro⟩

/-- Witness for C1: each branch at a concrete configuration and state. -/
theorem C1_report_dry_frame_witness :
    (move_file cfgReportDry stA "/s/a.csv" "X" ["a"] "t0" false).fs = stA.fs
    ∧ (move_file cfgDry stA "/s/a.csv" "X" ["a"] "t0" false).fs = stA.fs
    ∧ save_manifest cfgDry (mkManifest cfgDry "m" demoOps) stA.fs "s"
        = (stA.fs, none, [])
    ∧ ∃ (fs' : FS) (p : String) (out : List String),
        save_manifest cfgReport (mkManifest cfgReport "m" demoOps) stA.fs "s" =
          (fs', some (p, mkManifest cfgReport "m" demoOps), out)
        ∧ (mkManifest cfgReport "m" demoOps).report_only = true :=
  ⟨((C1_report_dry_frame cfgReportDry stA "/s/a.csv" "X" ["a"] "t0" false
      "m" "s" demoOps stA.fs).1 rfl).1,
   ((C1_report_dry_frame cfgDry stA "/s/a.csv" "X" ["a"] "t0" false
      "m" "s" demoOps stA.fs).2.1 rfl rfl).1,
   (C1_report_dry_frame cfgDry stA "/s/a.csv" "X" ["a"] "t0" false
      "m" "s" demoOps stA.fs).2.2.1 (Or.inl rfl),
   (C1_report_dry_frame cfgReport stA "/s/a.csv" "X" ["a"] "t0" false
      "m" "s" demoOps stA.fs).2.2.2 rfl rfl (by decide)⟩

/-- C3: in apply mode the destination category directory is created; on a
collision the destination is renamed by inserting an underscore-timestamp
suffix before the extension (`ts` stands for the
`datetime.now().strftime` 14-digit timestamp) and the record's planned_to
is updated to the renamed path before the move; a successful move yields
status "success" with the actual moved_to path; a failure yields status
"failed" with no moved_to, an error line on the output channel instead of
an exception, and the loop continues with the remaining files. -/
theorem C3_apply_mode (cfg : ClassifierCfg) (st : RunState)
    (fp cat : String) (hn : List String) (ts : String) (mf : Bool)
    (hro : cfg.report_only = false) (hdr : cfg.dry_run = false) :
    (pathJoin cfg.dest cat ∈ (move_file cfg st fp cat hn ts mf).fs.dirs)
    ∧ (st.fs.fileExists (pathJoin (pathJoin cfg.dest cat) (pathName fp)) = false →
       mf = false →
        move_file cfg st fp cat hn ts mf =
          { fs := (st.fs.mkdirParents (pathJoin cfg.dest cat)).move fp
              (pathJoin (pathJoin cfg.dest cat) (pathName fp)),
            ops := st.ops ++
              [{ original_path := fp,
                 planned_to := pathJoin (pathJoin cfg.dest cat) (pathName fp),
                 category := cat, headers := hn, status := "success",
                 moved_to := some (pathJoin (pathJoin cfg.dest cat) (pathName fp)) }],
            out := st.out ++ ["Moved: " ++ pathName fp ++ " -> " ++ cat ++ "/"] })
    ∧ (st.fs.fileExists (pathJoin (pathJoin cfg.dest cat) (pathName fp)) = true →
       mf = false →
        move_file cfg st fp cat hn ts mf =
          { fs := (st.fs.mkdirParents (pathJoin cfg.dest cat)).move fp
              (pathJoin (pathJoin cfg.dest cat)
                (nameStem (pathName fp) ++ "_" ++ ts ++ nameSuffix (pathName fp))),
            ops := st.ops ++
              [{ original_path := fp,
                 planned_to := pathJoin (pathJoin cfg.dest cat)
                   (nameStem (pathName fp) ++ "_" ++ ts ++ nameSuffix (pathName fp)),
                 category := cat, headers := hn, status := "success",
                 moved_to := some (pathJoin (pathJoin cfg.dest cat)
                   (nameStem (pathName fp) ++ "_" ++ ts ++ nameSuffix (pathName fp))) }],
            out := st.out ++ ["Moved: " ++ pathName fp ++ " -> " ++ cat ++ "/"] })
    ∧ (mf = true →
        (move_file cfg st fp cat hn ts mf).fs.files = st.fs.files
        ∧ ∃ op : Op, (move_file cfg st fp cat hn ts mf).ops = st.ops ++ [op]
          ∧ op.status = "failed" ∧ op.moved_to = none
          ∧ (op.planned_to = pathJoin (pathJoin cfg.dest cat) (pathName fp)
             ∨ op.planned_to = pathJoin (pathJoin cfg.dest cat)
                 (nameStem (pathName fp) ++ "_" ++ ts ++ nameSuffix (pathName fp)))
          ∧ (move_file cfg st fp cat hn ts mf).out =
              st.out ++ ["Failed to move " ++ pathName fp])
    ∧ (∀ (fi : FileInput) (rest : List FileInput),
        run_files cfg st (fi :: rest) = run_files cfg (run_step cfg st fi) rest) := by
  refine ⟨?_, ?_, ?_, ?_, fun fi rest => rfl⟩
  · unfold move_file
    rw [hro, hdr]
    by_cases hcol : (st.fs.mkdirParents (pathJoin cfg.dest cat)).fileExists
        (pathJoin (pathJoin cfg.dest cat) (pathName fp)) = true
    · by_cases hmf : mf = true
      · simp only [hcol, hmf]
        simpa using mem_mkdirParents st.fs (pathJoin cfg.dest cat)
      · simp only [hcol, Bool.not_eq_true] at *
        simp only [hmf, hcol]
        simpa [FS.move] using mem_mkdirParents st.fs (pathJoin cfg.dest cat)
    · by_cases hmf : mf = true
      · simp only [Bool.not_eq_true] at hcol
        simp only [hmf, hcol]
        simpa using mem_mkdirParents st.fs (pathJoin cfg.dest cat)
      · simp only [Bool.not_eq_true] at hcol hmf
        simp only [hmf, hcol]
        simpa [FS.move] using mem_mkdirParents st.fs (pathJoin cfg.dest cat)
  · intro hcol hmf
    have hcol' : (st.fs.mkdirParents (pathJoin cfg.dest cat)).fileExists
        (pathJoin (pathJoin cfg.dest cat) (pathName fp)) = false := hcol
    unfold move_file
    rw [hro, hdr]
    simp [hcol', hmf]
  · intro hcol hmf
    have hcol' : (st.fs.mkdirParents (pathJoin cfg.dest cat)).fileExists
        (pathJoin (pathJoin cfg.dest cat) (pathName fp)) = true := hcol
    unfold move_file
    rw [hro, hdr]
    simp [hcol', hmf]
  · intro hmf
    unfold move_file
    rw [hro, hdr]
    by_cases hcol : (st.fs.mkdirParents (pathJoin cfg.dest cat)).fileExists
        (pathJoin (pathJoin cfg.dest cat) (pathName fp)) = true
    · simp only [hcol, hmf]
      refine ⟨rfl, ?_⟩
      exact ⟨_, rfl, rfl, rfl, Or.inr rfl, rfl⟩
    · simp only [Bool.not_eq_true] at hcol
      simp only [hcol, hmf]
      refine ⟨rfl, ?_⟩
      exact ⟨_, rfl, rfl, rfl, Or.inl rfl, rfl⟩

/-- Witness for C3: collision rename and failure reporting on concrete
states. -/
theorem C3_apply_mode_witness :
    ("/d/X" : String) ∈ (move_file cfgApply stA "/s/a.csv" "X" ["a"]
        "20250101000000" false).fs.dirs
    ∧ move_file cfgApply ⟨⟨["/s/a.csv", "/d/X/a.csv"], ["/d", "/d/X"]⟩, [], []⟩
        "/s/a.csv" "X" ["a"] "20250101000000" false =
        { fs := (FS.mkdirParents ⟨["/s/a.csv", "/d/X/a.csv"], ["/d", "/d/X"]⟩
              "/d/X").move "/s/a.csv" "/d/X/a_20250101000000.csv",
          ops := [{ original_path := "/s/a.csv",
                    planned_to := "/d/X/a_20250101000000.csv",
                    category := "X", headers := ["a"], status := "success",
                    moved_to := some "/d/X/a_20250101000000.csv" }],
          out := ["Moved: a.csv -> X/"] }
    ∧ (move_file cfgApply stA "/s/a.csv" "X" ["a"] "20250101000000" true).fs.files
        = stA.fs.files := by
  refine ⟨?_, ?_, ?_⟩
  · exact (C3_apply_mode cfgApply stA "/s/a.csv" "X" ["a"]
      "20250101000000" false rfl rfl).1
  · have h := (C3_apply_mode cfgApply
      ⟨⟨["/s/a.csv", "/d/X/a.csv"], ["/d", "/d/X"]⟩, [], []⟩
      "/s/a.csv" "X" ["a"] "20250101000000" false rfl rfl).2.2.1 (by decide) rfl
    rw [h]
    decide
  · exact ((C3_apply_mode cfgApply stA "/s/a.csv" "X" ["a"]
      "20250101000000" true rfl rfl).2.2.2.1 rfl).1

/-- `rollback_step` with its let bindings expanded (definitional). -/
theorem rollback_step_eq (d : Bool) (acc : FS × List String) (op : RbOp) :
    rollback_step d acc op =
      (if op.status ≠ "success" then acc
       else if (pyOrStr op.moved_to op.planned_to).getD "" = "" then
         (acc.1, acc.2 ++ ["Warning: manifest op missing moved_to/planned_to; skipping"])
       else if ¬ acc.1.fileExists ((pyOrStr op.moved_to op.planned_to).getD "") = true then
         (acc.1, acc.2 ++ ["Warning: Could not find file to restore: " ++
           (pyOrStr op.moved_to op.planned_to).getD ""])
       else if d = true then
         (acc.1, acc.2 ++ ["[DRY RUN] Would restore: " ++
           pathName ((pyOrStr op.moved_to op.planned_to).getD "") ++ " -> " ++
           op.original_path])
       else
         ((acc.1.mkdirParents (pathParent op.original_path)).move
            ((pyOrStr op.moved_to op.planned_to).getD "") op.original_path,
          acc.2 ++ ["Restored: " ++ pathName ((pyOrStr op.moved_to op.planned_to).getD "")])) :=
  rfl

/-- With the dry-run flag set, one rollback iteration never changes the
filesystem. -/
theorem rollback_step_fst_dry (acc : FS × List String) (op : RbOp) :
    (rollback_step true acc op).1 = acc.1 := by
  rw [rollback_step_eq]
  split_ifs with h1 h2 h3 h4 <;> try rfl
  exact absurd rfl h4

/-- With the dry-run flag set, the whole rollback fold never changes the
filesystem. -/
theorem rollback_fold_fst_dry (ops : List RbOp) :
    ∀ acc : FS × List String, (ops.foldl (rollback_step true) acc).1 = acc.1 := by
  induction ops with
  | nil => intro acc; rfl
  | cons op rest ih =>
    intro acc
    show (rest.foldl (rollback_step true) (rollback_step true acc op)).1 = acc.1
    rw [ih (rollback_step true acc op), rollback_step_fst_dry]

/-- C2: a missing manifest is reported and rollback returns with no
filesystem change; a corrupt manifest aborts (the `json.load` exception
propagates) before any filesystem access; a loaded manifest's records are
folded strictly in recorded order; non-"success" records are skipped
entirely; a success record with no usable location field warns and skips;
a located file that no longer exists warns and skips; otherwise the file
is moved back to its original path, creating the parent directory; the
location is `moved_to` with fallback to `planned_to`; and with the
instance's dry-run flag set rollback prints but never moves. -/
theorem C2_rollback (d : Bool) (fs : FS) (data : RbManifest)
    (acc : FS × List String) (op : RbOp) (ops₁ ops₂ : List RbOp) (t : String) :
    (rollback d .notFound fs = .ok (fs, ["Error: Manifest not found."]))
    ∧ (rollback d .corrupt fs = .error "json.JSONDecodeError")
    ∧ (rollback d (.ok ⟨t, ops₁ ++ ops₂⟩) fs =
        .ok (ops₂.foldl (rollback_step d)
          (ops₁.foldl (rollback_step d)
            (fs, ["Starting rollback for session: " ++ t]))))
    ∧ (op.status ≠ "success" → rollback_step d acc op = acc)
    ∧ (op.status = "success" →
        (op.moved_to = none ∨ op.moved_to = some "") →
        (op.planned_to = none ∨ op.planned_to = some "") →
        rollback_step d acc op =
          (acc.1, acc.2 ++ ["Warning: manifest op missing moved_to/planned_to; skipping"]))
    ∧ (∀ l : String, op.status = "success" →
        pyOrStr op.moved_to op.planned_to = some l → l ≠ "" →
        acc.1.fileExists l = false →
        rollback_step d acc op =
          (acc.1, acc.2 ++ ["Warning: Could not find file to restore: " ++ l]))
    ∧ (∀ l : String, op.status = "success" →
        pyOrStr op.moved_to op.planned_to = some l → l ≠ "" →
        acc.1.fileExists l = true → d = false →
        rollback_step d acc op =
          ((acc.1.mkdirParents (pathParent op.original_path)).move l op.original_path,
           acc.2 ++ ["Restored: " ++ pathName l]))
    ∧ ((op.moved_to = none ∨ op.moved_to = some "") →
        pyOrStr op.moved_to op.planned_to = op.planned_to)
    ∧ (d = true → ∃ out : List String, rollback d (.ok data) fs = .ok (fs, out)) := by
  refine ⟨rfl, rfl, ?_, ?_, ?_, ?_, ?_, ?_, ?_⟩
  · show Except.ok ((ops₁ ++ ops₂).foldl (rollback_step d) _) = _
    rw [List.foldl_append]
  · intro hs
    rw [rollback_step_eq, if_pos hs]
  · intro hs hm hp
    have hempty : (pyOrStr op.moved_to op.planned_to).getD "" = "" := by
      rcases hm with h1 | h1 <;> rcases hp with h2 | h2 <;> simp [pyOrStr, h1, h2]
    rw [rollback_step_eq, if_neg (by simp [hs]), if_pos hempty]
  · intro l hs hor hl hex
    rw [rollback_step_eq, if_neg (by simp [hs]), hor]
    rw [if_neg (by simpa using hl), if_pos (by simp [hex])]
    simp
  · intro l hs hor hl hex hd
    subst hd
    rw [rollback_step_eq, if_neg (by simp [hs]), hor]
    rw [if_neg (by simpa using hl), if_neg (by simp [hex]), if_neg (by simp)]
    simp
  · intro hm
    rcases hm with h1 | h1 <;> simp [pyOrStr, h1]
  · intro hd
    subst hd
    have hfold : data.operations.foldl (rollback_step true)
        (fs, ["Starting rollback for session: " ++ data.timestamp]) =
        (fs, (data.operations.foldl (rollback_step true)
          (fs, ["Starting rollback for session: " ++ data.timestamp])).2) :=
      Prod.ext (rollback_fold_fst_dry data.operations _) rfl
    exact ⟨_, congrArg Except.ok hfold⟩

/-- Witness for C2 at concrete records, filesystem and manifest. -/
theorem C2_rollback_witness :
    (rollback false .notFound fsDest = .ok (fsDest, ["Error: Manifest not found."]))
    ∧ (rollback false .corrupt fsDest = .error "json.JSONDecodeError")
    ∧ rollback_step false (fsDest, []) rbFailed = (fsDest, [])
    ∧ rollback_step false (fsDest, []) rbMissing =
        (fsDest, ["Warning: manifest op missing moved_to/planned_to; skipping"])
    ∧ rollback_step false (⟨[], []⟩, []) rbGood =
        (⟨[], []⟩, ["Warning: Could not find file to restore: /d/X/a.csv"])
    ∧ rollback_step false (fsDest, []) rbGood =
        ((fsDest.mkdirParents "/s").move "/d/X/a.csv" "/s/a.csv", ["Restored: a.csv"])
    ∧ (∃ out : List String, rollback true (.ok rbData) fsDest = .ok (fsDest, out)) :=
  ⟨(C2_rollback false fsDest rbData (fsDest, []) rbFailed [] [] "t").1,
   (C2_rollback false fsDest rbData (fsDest, []) rbFailed [] [] "t").2.1,
   (C2_rollback false fsDest rbData (fsDest, []) rbFailed [] [] "t").2.2.2.1 (by decide),
   (C2_rollback false fsDest rbData (fsDest, []) rbMissing [] [] "t").2.2.2.2.1
     (by decide) (Or.inl (by decide)) (Or.inl (by decide)),
   by
    have h := (C2_rollback false fsDest rbData (⟨[], []⟩, []) rbGood [] [] "t").2.2.2.2.2.1
      "/d/X/a.csv" (by decide) (by decide) (by decide) (by decide)
    exact h,
   by
    have h := (C2_rollback false fsDest rbData (fsDest, []) rbGood [] [] "t").2.2.2.2.2.2.1
      "/d/X/a.csv" (by decide) (by decide) (by decide) (by decide) rfl
    rw [h]
    decide,
   (C2_rollback true fsDest rbData (fsDest, []) rbFailed [] [] "t").2.2.2.2.2.2.2.2 rfl⟩

/-- Counterexample to C5 as stated: a file whose first row is non-empty
but normalizes to the empty column list is NOT routed to "unclassified" —
with a contains signature whose first category requires nothing, the empty
normalized header matches that category instead. -/
theorem C5_counterexample :
    read_header_row "/s/a.csv" (.rows (some ["  "])) = some ["  "]
    ∧ normalize_header cfgCatchAll ["  "] = []
    ∧ (run_step cfgCatchAll ⟨⟨["/s/a.csv"], []⟩, [], []⟩
        ⟨"/s/a.csv", .rows (some ["  "]), "20250101000000", false⟩).ops.map
        (fun op => op.category) = ["CatchAll"]
    ∧ ("CatchAll" : String) ≠ "unclassified" := by
  decide

/-- C5 (amended): for every candidate file whose header EXTRACTION yields
nothing (`_read_header_row` returns None), `run` routes the file to the
fixed category "unclassified" with an empty header list; a non-empty
extracted header that normalizes to the empty column list instead goes
through normal signature matching and may be assigned another category. -/
theorem C5_unclassified_on_no_header (cfg : ClassifierCfg) (st : RunState)
    (fi : FileInput) (h : read_header_row fi.path fi.outcome = none) :
    ∃ op : Op, (run_step cfg st fi).ops = st.ops ++ [op]
      ∧ op.category = "unclassified" ∧ op.headers = [] := by
  unfold run_step
  rw [h]
  obtain ⟨op, h1, h2, _, h4, _⟩ := move_file_appends cfg st fi.path
    "unclassified" [] fi.ts fi.moveFails
  exact ⟨op, h1, h2, h4⟩

/-- Witness for amended C5: a `.txt` file (extraction returns None) ends up
unclassified with an empty header list. -/
theorem C5_unclassified_on_no_header_witness :
    ∃ op : Op,
      (run_step cfgApply stA ⟨"/s/b.txt", .rows (some ["a"]), "t", false⟩).ops
        = stA.ops ++ [op]
      ∧ op.category = "unclassified" ∧ op.headers = [] :=
  C5_unclassified_on_no_header cfgApply stA
    ⟨"/s/b.txt", .rows (some ["a"]), "t", false⟩ (by decide)

end Csvsmith
